import Mathlib

/-!
Shallow embedding of the udcn repository's fast-path forwarding engine
(src/udcn-ebpf/src/main.rs) and its wire/hash helpers
(src/udcn-common/src/lib.rs).

Modelling conventions:
* machine bytes are `Nat` values taken modulo 256 at each read;
* Rust `u32` counters (which wrap in release builds) are `Nat` values
  updated through `incU32`, i.e. modulo 2^32;
* the three eBPF maps (PIT `HashMap`, CONTENT_STORE `LruHashMap`,
  DATA_CACHE `HashMap`) are association lists; a `HashMap` insert with
  flag 0 (BPF_ANY) overwrites an existing key and otherwise fails when
  the map is at capacity, an `LruHashMap` lookup refreshes recency and
  an `LruHashMap` insert evicts the least recently used entry when full;
* the STATS `Array` map has one slot that always exists once the program
  is loaded, so `update_stats` is modelled as a plain state update;
* `try_udcn` additionally returns the list of `(offset, width)` memory
  dereferences it performed on the frame, so that bounds-safety of the
  classifier's reads can be stated; a read past the end of the byte list
  yields 0 in the model.
-/

namespace UDCN

/-- XDP action codes from the kernel's xdp_action enum. -/
def XDP_ABORTED : Nat := 0

def XDP_DROP : Nat := 1

def XDP_PASS : Nat := 2

def XDP_TX : Nat := 3

def U32LIM : Nat := 4294967296

/-- Wrapping u32 increment: models a Rust `u32 += 1` (release semantics). -/
def incU32 (x : Nat) : Nat := (x + 1) % U32LIM

/-- PitEntry from udcn-common (fields name_hash, face_id, timestamp). -/
structure PitEntry where
  name_hash : Nat
  face_id : Nat
  timestamp : Nat
deriving Repr, DecidableEq

/-- CacheEntry from udcn-common (fields name_hash, data_size, timestamp). -/
structure CacheEntry where
  name_hash : Nat
  data_size : Nat
  timestamp : Nat
deriving Repr, DecidableEq

/-- InterestPacket payload fields; the constant header (type 0x05,
length = size_of::<InterestPacket>() = 12) set by InterestPacket::new is
encoded directly in `serialize_interest`. -/
structure InterestPacket where
  name_hash : Nat
  nonce : Nat
deriving Repr, DecidableEq

/-- DataPacket payload fields; the constant header (type 0x06,
length = size_of::<DataPacket>() = 16) set by DataPacket::new is encoded
directly in `serialize_data`. -/
structure DataPacket where
  name_hash : Nat
  content_size : Nat
  signature : Nat
deriving Repr, DecidableEq

/-- PacketStats from udcn-common: the seven u32 statistics counters. -/
structure PacketStats where
  interest_received : Nat
  data_received : Nat
  cache_hits : Nat
  cache_misses : Nat
  pit_hits : Nat
  forwards : Nat
  drops : Nat
deriving Repr, DecidableEq

def zeroStats : PacketStats := ⟨0, 0, 0, 0, 0, 0, 0⟩

/-- The shared state of the fast path: the three maps plus the STATS slot. -/
structure EngineState where
  pit : List (Nat × PitEntry)
  cs : List (Nat × CacheEntry)
  dataCache : List (Nat × List Nat)
  stats : PacketStats
deriving Repr, DecidableEq

def initState : EngineState := { pit := [], cs := [], dataCache := [], stats := zeroStats }

/-- Association-list lookup keyed on the first component. -/
def lookupA {β : Type} (k : Nat) : List (Nat × β) → Option β
  | [] => none
  | (k2, v) :: rest => if k2 = k then some v else lookupA k rest

/-- Remove the entry for a key (keys are unique in a BPF map). -/
def mapRemove {β : Type} (k : Nat) (m : List (Nat × β)) : List (Nat × β) :=
  m.filter (fun p => p.1 ≠ k)

/-- BPF `HashMap` insert with flag 0 (BPF_ANY): overwrite if the key is
present, otherwise add if below capacity, otherwise fail (E2BIG). -/
def hashMapInsert {β : Type} (cap k : Nat) (v : β) (m : List (Nat × β)) :
    Option (List (Nat × β)) :=
  if (lookupA k m).isSome then some ((k, v) :: mapRemove k m)
  else if m.length < cap then some ((k, v) :: m)
  else none

/-- BPF `LruHashMap` lookup: returns the value and refreshes recency
(the list is kept most-recently-used first). -/
def lruGet {β : Type} (k : Nat) (m : List (Nat × β)) :
    Option β × List (Nat × β) :=
  match lookupA k m with
  | some v => (some v, (k, v) :: mapRemove k m)
  | none => (none, m)

/-- BPF `LruHashMap` insert: always succeeds, evicting the least
recently used entry (the last one) when the map is full. -/
def lruInsert {β : Type} (cap k : Nat) (v : β) (m : List (Nat × β)) :
    List (Nat × β) :=
  if (lookupA k m).isSome then (k, v) :: mapRemove k m
  else if m.length < cap then (k, v) :: m
  else (k, v) :: m.dropLast

def FNV_OFFSET_BASIS : Nat := 0x811c9dc5

def FNV_PRIME : Nat := 0x01000193

/-- hash_name from udcn-common: 32-bit FNV-1a over the name bytes.
Each u8 input byte is modelled as `byte % 256`; the wrapping_mul is the
multiplication modulo 2^32. -/
def hash_name (name : List Nat) : Nat :=
  name.foldl (fun hash byte => ((hash ^^^ (byte % 256)) * FNV_PRIME) % U32LIM)
    FNV_OFFSET_BASIS

/-- Little-endian 4-byte encoding of the low 32 bits of a value (the
control-plane host is little-endian; fields are emitted in native order). -/
def le32 (x : Nat) : List Nat :=
  [x % 256, x / 256 % 256, x / 65536 % 256, x / 16777216 % 256]

/-- Little-endian 2-byte encoding of the low 16 bits of a value. -/
def le16 (x : Nat) : List Nat := [x % 256, x / 256 % 256]

/-- serialize_interest from udcn-common: a byte-for-byte transmute of the
repr(C) InterestPacket struct. repr(C) aligns the u32 fields to 4 bytes,
so the struct is 12 bytes: header at 0..2, two padding bytes at 2..4
(uninitialized in the source; modelled as 0 — no theorem below depends on
their value), name_hash at 4..8, nonce at 8..12. InterestPacket::new sets
packet_length = size_of::<InterestPacket>() = 12. -/
def serialize_interest (name : List Nat) (nonce : Nat) : List Nat :=
  [0x05, 12, 0, 0] ++ le32 (hash_name name) ++ le32 nonce

/-- serialize_data from udcn-common: the repr(C) DataPacket struct bytes
followed by the raw content. repr(C) makes DataPacket 16 bytes: header at
0..2, padding at 2..4, name_hash at 4..8, content_size at 8..10, padding
at 10..12, signature at 12..16 (padding modelled as 0). DataPacket::new
sets packet_length = size_of::<DataPacket>() = 16, and content.len() is
cast to u16. -/
def serialize_data (name : List Nat) (content : List Nat) (signature : Nat) :
    List Nat :=
  [0x06, 16, 0, 0] ++ le32 (hash_name name) ++ le16 content.length ++ [0, 0] ++
    le32 signature ++ content

/-- Read one byte of the frame (u8); out-of-range reads yield 0. -/
def read8 (buf : List Nat) (i : Nat) : Nat := buf.getD i 0 % 256

/-- u16::from_be of a 2-byte load at offset i. -/
def read16be (buf : List Nat) (i : Nat) : Nat :=
  read8 buf i * 256 + read8 buf (i + 1)

/-- Native (little-endian) u16 load at offset i. -/
def read16le (buf : List Nat) (i : Nat) : Nat :=
  read8 buf i + read8 buf (i + 1) * 256

/-- Native (little-endian) u32 load at offset i. -/
def read32le (buf : List Nat) (i : Nat) : Nat :=
  read8 buf i + read8 buf (i + 1) * 256 + read8 buf (i + 2) * 65536 +
    read8 buf (i + 3) * 16777216

/-- update_stats(|stats| stats.drops += 1). The STATS array slot 0
always exists, so the conditional update is a plain update. -/
def bumpDrops (s : EngineState) : EngineState :=
  { s with stats := { s.stats with drops := incU32 s.stats.drops } }

/-- update_stats(|stats| stats.forwards += 1). -/
def bumpForwards (s : EngineState) : EngineState :=
  { s with stats := { s.stats with forwards := incU32 s.stats.forwards } }

/-- update_stats(|stats| stats.interest_received += 1). -/
def bumpInterest (s : EngineState) : EngineState :=
  { s with stats := { s.stats with interest_received := incU32 s.stats.interest_received } }

/-- update_stats(|stats| stats.data_received += 1). -/
def bumpData (s : EngineState) : EngineState :=
  { s with stats := { s.stats with data_received := incU32 s.stats.data_received } }

/-- update_stats(|stats| stats.cache_hits += 1). -/
def bumpCacheHits (s : EngineState) : EngineState :=
  { s with stats := { s.stats with cache_hits := incU32 s.stats.cache_hits } }

/-- update_stats(|stats| stats.pit_hits += 1). -/
def bumpPitHits (s : EngineState) : EngineState :=
  { s with stats := { s.stats with pit_hits := incU32 s.stats.pit_hits } }

/-- The shared PIT-insert tail of handle_interest (the code below the
cache-lookup block, reached on any fall-through): build a PitEntry with
face_id 1 and timestamp 0, try PIT.insert, and on failure count a drop
and return XDP_DROP. -/
def insertPit (nh : Nat) (s : EngineState) : Nat × EngineState :=
  let entry : PitEntry := { name_hash := nh, face_id := 1, timestamp := 0 }
  match hashMapInsert 1024 nh entry s.pit with
  | some pit2 => (XDP_PASS, { s with pit := pit2 })
  | none => (XDP_DROP, bumpDrops s)

/-- handle_interest from udcn-ebpf: CONTENT_STORE.get (an LRU lookup that
refreshes recency) counts a cache hit; a DATA_CACHE hit then returns
XDP_TX; otherwise fall through to the PIT insert. -/
def handle_interest (interest : InterestPacket) (s : EngineState) :
    Nat × EngineState :=
  let nh := interest.name_hash
  match lruGet nh s.cs with
  | (some _, cs2) =>
      let s2 : EngineState := bumpCacheHits { s with cs := cs2 }
      match lookupA nh s2.dataCache with
      | some _ => (XDP_TX, s2)
      | none => insertPit nh s2
  | (none, _) => insertPit nh s

/-- The body of handle_data after the PIT.get, parameterised by the
observed lookup result: on a hit, count pit_hits, PIT.remove, and insert
a CacheEntry (data_size from the packet, timestamp 0) into the
CONTENT_STORE; on a miss, count a drop and return XDP_DROP. Passing the
observation explicitly mirrors the fact that PIT.get and PIT.remove are
two separate atomic map operations. -/
def dataStep (nh size : Nat) (observed : Option PitEntry) (s : EngineState) :
    Nat × EngineState :=
  match observed with
  | some _ =>
      let entry : CacheEntry := { name_hash := nh, data_size := size, timestamp := 0 }
      (XDP_PASS,
        bumpPitHits
          { s with pit := mapRemove nh s.pit, cs := lruInsert 512 nh entry s.cs })
  | none => (XDP_DROP, bumpDrops s)

/-- handle_data from udcn-ebpf: PIT.get, then the commit phase above.
The payload slice is received but unused (the source names it
_full_packet and never touches it). -/
def handle_data (pkt : DataPacket) (_full_packet : List Nat) (s : EngineState) :
    Nat × EngineState :=
  dataStep pkt.name_hash pkt.content_size (lookupA pkt.name_hash s.pit) s

/-- Result of one fast-path invocation: the XDP action, the new shared
state, and the `(offset, width)` frame dereferences performed in order. -/
structure XdpResult where
  action : Nat
  state : EngineState
  reads : List (Nat × Nat)
deriving Repr, DecidableEq

/-- try_udcn from udcn-ebpf, translated check for check. `data + k >
data_end` becomes `buf.length < k`. The entry counter (drops) is bumped
first; forwards is bumped once the frame reaches the UDP-port check;
interest_received/data_received are bumped before the per-type length
checks. The Data branch checks only 10 payload bytes but dereferences
the 4-byte signature at payload offset 8. -/
def try_udcn (buf : List Nat) (s0 : EngineState) : XdpResult :=
  let len := buf.length
  let s1 := bumpDrops s0
  if len < 34 then ⟨XDP_PASS, s1, []⟩ else
  if read16be buf 12 ≠ 0x0800 then ⟨XDP_PASS, s1, [(12, 2)]⟩ else
  if len < 14 + (read8 buf 14 &&& 0x0f) * 4 + 8 then
    ⟨XDP_PASS, s1, [(12, 2), (14, 1)]⟩ else
  if read8 buf 23 ≠ 17 then ⟨XDP_PASS, s1, [(12, 2), (14, 1), (23, 1)]⟩ else
  let uhs := 14 + (read8 buf 14 &&& 0x0f) * 4
  let s2 := bumpForwards s1
  let rs := [(12, 2), (14, 1), (23, 1), (uhs + 2, 2), (uhs, 2)]
  if read16be buf (uhs + 2) ≠ 6363 ∧ read16be buf uhs ≠ 6363 then
    ⟨XDP_PASS, s2, rs⟩ else
  let po := uhs + 8
  if len < po + 2 then ⟨XDP_PASS, s2, rs⟩ else
  let rs2 := rs ++ [(po, 1)]
  if read8 buf po ≠ 0x05 ∧ read8 buf po ≠ 0x06 then ⟨XDP_PASS, s2, rs2⟩ else
  let s3 :=
    if read8 buf po = 0x05 then bumpInterest s2
    else if read8 buf po = 0x06 then bumpData s2
    else s2
  if read8 buf po = 0x05 then
    if len < po + 12 then ⟨XDP_PASS, s3, rs2⟩ else
    let r := handle_interest
      { name_hash := read32le buf (po + 2), nonce := read32le buf (po + 6) } s3
    ⟨r.1, r.2, rs2 ++ [(po + 2, 4), (po + 6, 4)]⟩
  else if read8 buf po = 0x06 then
    if len < po + 10 then ⟨XDP_PASS, s3, rs2⟩ else
    let r := handle_data
      { name_hash := read32le buf (po + 2), content_size := read16le buf (po + 6),
        signature := read32le buf (po + 8) }
      (buf.drop po) s3
    ⟨r.1, r.2, rs2 ++ [(po + 2, 4), (po + 6, 2), (po + 8, 4)]⟩
  else ⟨XDP_PASS, s3, rs2⟩

/-- The classifier's typed outcome (spec section 4.1): pass-through, or
an Interest / Data classification with the decoded fields. -/
inductive Classification where
  | notIntercepted : Classification
  | interest : Nat → Nat → Classification
  | dataPkt : Nat → Nat → Nat → Classification
deriving Repr, DecidableEq

/-- The pure classification underlying try_udcn: the same checks in the
same order, without the counter and table effects. -/
def classify (buf : List Nat) : Classification :=
  let len := buf.length
  if len < 34 then .notIntercepted else
  if read16be buf 12 ≠ 0x0800 then .notIntercepted else
  if len < 14 + (read8 buf 14 &&& 0x0f) * 4 + 8 then .notIntercepted else
  if read8 buf 23 ≠ 17 then .notIntercepted else
  let uhs := 14 + (read8 buf 14 &&& 0x0f) * 4
  if read16be buf (uhs + 2) ≠ 6363 ∧ read16be buf uhs ≠ 6363 then
    .notIntercepted else
  let po := uhs + 8
  if len < po + 2 then .notIntercepted else
  if read8 buf po ≠ 0x05 ∧ read8 buf po ≠ 0x06 then .notIntercepted else
  if read8 buf po = 0x05 then
    if len < po + 12 then .notIntercepted
    else .interest (read32le buf (po + 2)) (read32le buf (po + 6))
  else if read8 buf po = 0x06 then
    if len < po + 10 then .notIntercepted
    else .dataPkt (read32le buf (po + 2)) (read16le buf (po + 6))
      (read32le buf (po + 8))
  else .notIntercepted

/-- Process a sequence of frames through the fast path. -/
def runPackets (bufs : List (List Nat)) (s : EngineState) : EngineState :=
  bufs.foldl (fun st buf => (try_udcn buf st).state) s

/-- A 52-byte frame: Ethernet (ethertype 0x0800), 20-byte IPv4 header
(ihl 5, protocol 17), 8-byte UDP header with destination port 6363, and
a 10-byte NDN payload whose first byte is 0x06 (Data). The payload
exactly meets the classifier's 10-byte Data threshold. -/
def frameData52 : List Nat :=
  List.replicate 12 0 ++ [0x08, 0x00] ++ [0x45] ++ List.replicate 8 0 ++ [17] ++
    List.replicate 10 0 ++ [0, 0, 0x18, 0xdb] ++ List.replicate 4 0 ++ [0x06] ++
    List.replicate 9 0

/-- A 34-byte ARP frame (ethertype 0x0806): fails the IPv4 check. -/
def frameArp : List Nat :=
  List.replicate 12 0 ++ [0x08, 0x06] ++ List.replicate 20 0

/-- A 42-byte IPv4/UDP frame whose source and destination ports are both
0: it reaches the UDP-port check and fails it. -/
def frameUdpPort0 : List Nat :=
  List.replicate 12 0 ++ [0x08, 0x00] ++ [0x45] ++ List.replicate 8 0 ++ [17] ++
    List.replicate 18 0

/-- A state whose PIT holds exactly one entry, for fingerprint
0xAABBCCDD = 2864434397. -/
def statePitOne : EngineState :=
  { pit := [(2864434397, ⟨2864434397, 1, 0⟩)], cs := [], dataCache := [],
    stats := zeroStats }

/-- A PIT filled to its capacity of 1024 entries, keyed 0..1023. -/
def fullPit : List (Nat × PitEntry) :=
  (List.range 1024).map (fun i => (i, ⟨i, 1, 0⟩))

/-- A state whose PIT is at capacity and holds no entry for key 5000. -/
def stateFullPit : EngineState :=
  { pit := fullPit, cs := [], dataCache := [], stats := zeroStats }

/-- A state whose PIT holds exactly one entry, for fingerprint 7. -/
def raceState : EngineState :=
  { pit := [(7, ⟨7, 1, 0⟩)], cs := [], dataCache := [], stats := zeroStats }

/-- A state with empty tables whose drops counter reads d. -/
def dropsOnlyState (d : Nat) : EngineState :=
  { pit := [], cs := [], dataCache := [], stats := { zeroStats with drops := d } }

/-- One step of a u32 counter: unchanged, incremented once, or
incremented twice (each increment wrapping at 2^32). -/
def evolves (a b : Nat) : Prop :=
  b = a ∨ b = incU32 a ∨ b = incU32 (incU32 a)

/-- All seven counters are below 2^32 (true of every reachable state). -/
def statsBounded (st : PacketStats) : Prop :=
  st.interest_received < U32LIM ∧ st.data_received < U32LIM ∧
  st.cache_hits < U32LIM ∧ st.cache_misses < U32LIM ∧
  st.pit_hits < U32LIM ∧ st.forwards < U32LIM ∧ st.drops < U32LIM

/-- Every PIT entry carries the constant face 1 and timestamp 0. -/
def goodPit (m : List (Nat × PitEntry)) : Prop :=
  ∀ p ∈ m, p.2.face_id = 1 ∧ p.2.timestamp = 0

/-- Every Content Store entry carries the constant timestamp 0. -/
def goodCs (m : List (Nat × CacheEntry)) : Prop :=
  ∀ p ∈ m, p.2.timestamp = 0

theorem lookupA_cons_self {β : Type} (k : Nat) (v : β) (m : List (Nat × β)) :
    lookupA k ((k, v) :: m) = some v := by
  simp [lookupA]

theorem lookupA_mapRemove_self {β : Type} (k : Nat) (m : List (Nat × β)) :
    lookupA k (mapRemove k m) = none := by
  induction m with
  | nil => rfl
  | cons p rest ih =>
      by_cases hp : p.1 = k
      · simpa [mapRemove, List.filter_cons, hp] using ih
      · simpa [mapRemove, List.filter_cons, hp, lookupA] using ih

theorem lookupA_lruInsert_self {β : Type} (cap k : Nat) (v : β)
    (m : List (Nat × β)) : lookupA k (lruInsert cap k v m) = some v := by
  unfold lruInsert
  split
  · exact lookupA_cons_self k v _
  · split
    · exact lookupA_cons_self k v _
    · exact lookupA_cons_self k v _

theorem lookupA_mem {β : Type} {k : Nat} {v : β} {m : List (Nat × β)}
    (h : lookupA k m = some v) : (k, v) ∈ m := by
  induction m with
  | nil => simp [lookupA] at h
  | cons p rest ih =>
      obtain ⟨a, b⟩ := p
      by_cases hp : a = k
      · subst hp
        simp only [lookupA, if_pos] at h
        cases h
        exact List.mem_cons_self _ _
      · simp only [lookupA, if_neg hp] at h
        exact List.mem_cons_of_mem _ (ih h)

theorem lookupA_eq_none_of_forall_ne {β : Type} {k : Nat} {m : List (Nat × β)}
    (h : ∀ p ∈ m, p.1 ≠ k) : lookupA k m = none := by
  induction m with
  | nil => rfl
  | cons p rest ih =>
      simp only [lookupA, if_neg (h p (List.mem_cons_self p rest))]
      exact ih (fun q hq => h q (List.mem_cons_of_mem p hq))

theorem fullPit_lookup_5000 : lookupA 5000 fullPit = none := by
  refine lookupA_eq_none_of_forall_ne ?_
  intro p hp
  simp only [fullPit, List.mem_map, List.mem_range] at hp
  obtain ⟨i, hi, rfl⟩ := hp
  omega

theorem fullPit_length : fullPit.length = 1024 := by
  simp [fullPit]

/-- C1: the classifier's Data branch validates only 10 payload bytes yet
dereferences the 4-byte signature at payload offset 8. On a frame whose
UDP payload is exactly 10 bytes (total length 52, payload at offset 42),
try_udcn performs the read (50, 4), which extends two bytes past the end
of the validated buffer — refuting the claim that every multi-byte field
read lies within the validated extent. -/
theorem c1_data_signature_read_out_of_bounds :
    frameData52.length = 52 ∧
    (50, 4) ∈ (try_udcn frameData52 initState).reads ∧
    frameData52.length < 50 + 4 := by decide

/-- C2: serialize_interest emits the repr(C) struct bytes, which are 12
bytes (not 10) with two padding bytes at offsets 2..3 and the name
fingerprint at offset 4 (not 2); serialize_data emits a 16-byte header
(not 12) before the content. Evaluated at name "/test" (bytes
[47,116,101,115,116]). -/
theorem c2_serialize_padded_layout :
    (serialize_interest [47, 116, 101, 115, 116] 0x12345678).length = 12 ∧
    (serialize_interest [47, 116, 101, 115, 116] 0x12345678).take 4 =
      [0x05, 12, 0, 0] ∧
    ((serialize_interest [47, 116, 101, 115, 116] 0x12345678).drop 4).take 4 =
      le32 (hash_name [47, 116, 101, 115, 116]) ∧
    (serialize_data [47, 116, 101, 115, 116] (List.replicate 11 0)
      0x9abcdef0).length = 16 + 11 := by decide

/-- C8: the Data path's PIT consumption is PIT.get followed by a separate
PIT.remove, so it is not an atomic find-and-remove. Under the legal
interleaving in which both concurrent invocations execute their PIT.get
before either executes its commit phase (both observe the lookup result
taken from the initial state), both record a PIT hit: starting from a
state with a single PIT entry for fingerprint 7, pit_hits rises by 2. -/
theorem c8_take_if_present_not_atomic :
    raceState.pit.length = 1 ∧
    (lookupA 7 raceState.pit).isSome = true ∧
    (dataStep 7 11 (lookupA 7 raceState.pit)
        (dataStep 7 11 (lookupA 7 raceState.pit) raceState).2).2.stats.pit_hits
      = 2 := by decide

/-- C4 counterexample: a valid IPv4/UDP frame on neither port 6363 fails
the classifier's port check (not intercepted), yet the forwards counter
is incremented in addition to the entry counter — refuting the claim
that only the entry counter (drops) changes. -/
theorem c4_counterexample :
    classify frameUdpPort0 = Classification.notIntercepted ∧
    (try_udcn frameUdpPort0 initState).state.stats.forwards ≠
      initState.stats.forwards := by decide

/-- C7: hash_name is exactly 32-bit FNV-1a: it maps the empty input to
the offset basis 0x811c9dc5, and extending the input by one byte XORs
that byte into the accumulator and multiplies by 0x01000193 modulo 2^32;
the result is always a 32-bit value. (The Lean function is pure, so
identical input trivially yields the identical fingerprint.) -/
theorem c7_hash_name_fnv1a :
    hash_name [] = FNV_OFFSET_BASIS ∧
    (∀ bs b, hash_name (bs ++ [b]) =
      ((hash_name bs ^^^ (b % 256)) * FNV_PRIME) % U32LIM) ∧
    (∀ bs, hash_name bs < U32LIM) := by
  refine ⟨rfl, ?_, ?_⟩
  · intro bs b
    simp [hash_name, List.foldl_append]
  · intro bs
    have h : ∀ (l : List Nat) (a : Nat), a < U32LIM →
        l.foldl (fun hash byte => ((hash ^^^ (byte % 256)) * FNV_PRIME) % U32LIM) a
          < U32LIM := by
      intro l
      induction l with
      | nil => intro a ha; exact ha
      | cons x xs ih =>
          intro a _
          exact ih _ (Nat.mod_lt _ (by decide))
    exact h bs _ (by decide)

/-- C3: from any state whose PIT holds an entry for fingerprint F,
handling one classified Data packet with fingerprint F returns Pass,
increments pit_hits exactly once (as a wrapping u32), leaves no PIT
entry for F, and upserts a Content Store entry for F carrying the
packet's declared size; handling a second Data packet with fingerprint F
from the resulting state returns Drop. -/
theorem c3_data_round_trip (F sz sig : Nat) (payload : List Nat) (e : PitEntry)
    (s : EngineState) (h : lookupA F s.pit = some e) :
    (handle_data ⟨F, sz, sig⟩ payload s).1 = XDP_PASS ∧
    (handle_data ⟨F, sz, sig⟩ payload s).2.stats.pit_hits =
      incU32 s.stats.pit_hits ∧
    lookupA F (handle_data ⟨F, sz, sig⟩ payload s).2.pit = none ∧
    lookupA F (handle_data ⟨F, sz, sig⟩ payload s).2.cs = some ⟨F, sz, 0⟩ ∧
    (∀ sz2 sig2 payload2,
      (handle_data ⟨F, sz2, sig2⟩ payload2
        (handle_data ⟨F, sz, sig⟩ payload s).2).1 = XDP_DROP) := by
  simp only [handle_data, dataStep, h]
  simp [bumpPitHits, lookupA_mapRemove_self, lookupA_lruInsert_self]

theorem c3_witness :
    lookupA 2864434397 statePitOne.pit = some ⟨2864434397, 1, 0⟩ ∧
    ((handle_data ⟨2864434397, 11, 5⟩ [] statePitOne).1 = XDP_PASS ∧
     (handle_data ⟨2864434397, 11, 5⟩ [] statePitOne).2.stats.pit_hits =
       incU32 statePitOne.stats.pit_hits ∧
     lookupA 2864434397 (handle_data ⟨2864434397, 11, 5⟩ [] statePitOne).2.pit =
       none ∧
     lookupA 2864434397 (handle_data ⟨2864434397, 11, 5⟩ [] statePitOne).2.cs =
       some ⟨2864434397, 11, 0⟩ ∧
     (∀ sz2 sig2 payload2,
       (handle_data ⟨2864434397, sz2, sig2⟩ payload2
         (handle_data ⟨2864434397, 11, 5⟩ [] statePitOne).2).1 = XDP_DROP)) :=
  ⟨by decide,
   c3_data_round_trip 2864434397 11 5 [] ⟨2864434397, 1, 0⟩ statePitOne (by decide)⟩

/-- C6: for a classified Interest whose fingerprint has no satisfying
cached payload (no joint Content Store and Payload Cache hit): when a
PIT entry for the fingerprint already exists, the insert succeeds and
overwrites it (action Pass, the PIT maps the fingerprint to the fresh
entry with face 1 and timestamp 0); when the PIT holds 1024 entries and
none for the fingerprint, the insert fails and the engine returns Drop
with the drops counter incremented and the PIT left unchanged. -/
theorem c6_pit_insert_overwrite_or_full (F n F2 n2 : Nat) (s t : EngineState)
    (hs : ¬((lookupA F s.cs).isSome ∧ (lookupA F s.dataCache).isSome))
    (hpresent : (lookupA F s.pit).isSome = true)
    (ht : ¬((lookupA F2 t.cs).isSome ∧ (lookupA F2 t.dataCache).isSome))
    (habsent : lookupA F2 t.pit = none)
    (hfull : t.pit.length = 1024) :
    ((handle_interest ⟨F, n⟩ s).1 = XDP_PASS ∧
     lookupA F (handle_interest ⟨F, n⟩ s).2.pit = some ⟨F, 1, 0⟩) ∧
    ((handle_interest ⟨F2, n2⟩ t).1 = XDP_DROP ∧
     (handle_interest ⟨F2, n2⟩ t).2.pit = t.pit ∧
     (handle_interest ⟨F2, n2⟩ t).2.stats.drops = incU32 t.stats.drops) := by
  constructor
  · have hins : ∀ s2 : EngineState, s2.pit = s.pit →
        (insertPit F s2).1 = XDP_PASS ∧
        lookupA F (insertPit F s2).2.pit = some ⟨F, 1, 0⟩ := by
      intro s2 h2
      unfold insertPit hashMapInsert
      simp [h2, hpresent, lookupA_cons_self]
    unfold handle_interest
    cases hcs : lookupA F s.cs with
    | none => simp only [lruGet, hcs]; exact hins s rfl
    | some v =>
        have hdc : lookupA F s.dataCache = none := by
          cases hdc2 : lookupA F s.dataCache with
          | none => rfl
          | some w => exact absurd ⟨by simp [hcs], by simp [hdc2]⟩ hs
        simp only [lruGet, hcs, bumpCacheHits, hdc]
        exact hins _ rfl
  · have hins : ∀ t2 : EngineState, t2.pit = t.pit → t2.stats.drops = t.stats.drops →
        (insertPit F2 t2).1 = XDP_DROP ∧
        (insertPit F2 t2).2.pit = t.pit ∧
        (insertPit F2 t2).2.stats.drops = incU32 t.stats.drops := by
      intro t2 h2 h3
      unfold insertPit hashMapInsert
      simp [bumpDrops, h2, h3, habsent, hfull]
    unfold handle_interest
    cases hcs : lookupA F2 t.cs with
    | none => simp only [lruGet, hcs]; exact hins t rfl rfl
    | some v =>
        have hdc : lookupA F2 t.dataCache = none := by
          cases hdc2 : lookupA F2 t.dataCache with
          | none => rfl
          | some w => exact absurd ⟨by simp [hcs], by simp [hdc2]⟩ ht
        simp only [lruGet, hcs, bumpCacheHits, hdc]
        exact hins _ rfl rfl

set_option maxRecDepth 20000 in
theorem c6_witness :
    (¬((lookupA 2864434397 statePitOne.cs).isSome ∧
        (lookupA 2864434397 statePitOne.dataCache).isSome)) ∧
    (lookupA 2864434397 statePitOne.pit).isSome = true ∧
    (¬((lookupA 5000 stateFullPit.cs).isSome ∧
        (lookupA 5000 stateFullPit.dataCache).isSome)) ∧
    lookupA 5000 stateFullPit.pit = none ∧
    stateFullPit.pit.length = 1024 ∧
    (((handle_interest ⟨2864434397, 3⟩ statePitOne).1 = XDP_PASS ∧
      lookupA 2864434397 (handle_interest ⟨2864434397, 3⟩ statePitOne).2.pit =
        some ⟨2864434397, 1, 0⟩) ∧
     ((handle_interest ⟨5000, 4⟩ stateFullPit).1 = XDP_DROP ∧
      (handle_interest ⟨5000, 4⟩ stateFullPit).2.pit = stateFullPit.pit ∧
      (handle_interest ⟨5000, 4⟩ stateFullPit).2.stats.drops =
        incU32 stateFullPit.stats.drops)) :=
  ⟨by decide, by decide, by decide, fullPit_lookup_5000, fullPit_length,
   c6_pit_insert_overwrite_or_full 2864434397 3 5000 4 statePitOne stateFullPit
     (by decide) (by decide) (by decide) fullPit_lookup_5000 fullPit_length⟩

/-- Master characterization of one fast-path invocation in terms of the
pure classification: a not-intercepted frame returns Pass with the state
changed only by counter bumps; an Interest classification hands off to
handle_interest; a Data classification hands off to handle_data. -/
theorem try_udcn_classify_spec (buf : List Nat) (s : EngineState) :
    (classify buf = Classification.notIntercepted ∧
      (try_udcn buf s).action = XDP_PASS ∧
      ((try_udcn buf s).state = bumpDrops s ∨
       (try_udcn buf s).state = bumpForwards (bumpDrops s) ∨
       (try_udcn buf s).state = bumpInterest (bumpForwards (bumpDrops s)) ∨
       (try_udcn buf s).state = bumpData (bumpForwards (bumpDrops s)))) ∨
    (∃ f n, classify buf = Classification.interest f n ∧
      (try_udcn buf s).action =
        (handle_interest ⟨f, n⟩ (bumpInterest (bumpForwards (bumpDrops s)))).1 ∧
      (try_udcn buf s).state =
        (handle_interest ⟨f, n⟩ (bumpInterest (bumpForwards (bumpDrops s)))).2) ∨
    (∃ f sz sig, classify buf = Classification.dataPkt f sz sig ∧
      (try_udcn buf s).action =
        (handle_data ⟨f, sz, sig⟩ (buf.drop (14 + (read8 buf 14 &&& 0x0f) * 4 + 8))
          (bumpData (bumpForwards (bumpDrops s)))).1 ∧
      (try_udcn buf s).state =
        (handle_data ⟨f, sz, sig⟩ (buf.drop (14 + (read8 buf 14 &&& 0x0f) * 4 + 8))
          (bumpData (bumpForwards (bumpDrops s)))).2) := by
  unfold try_udcn classify
  dsimp only
  by_cases h1 : buf.length < 34
  · simp only [if_pos h1]
    exact Or.inl ⟨trivial, trivial, Or.inl trivial⟩
  simp only [if_neg h1]
  by_cases h2 : read16be buf 12 ≠ 0x0800
  · simp only [if_pos h2]
    exact Or.inl ⟨trivial, trivial, Or.inl trivial⟩
  simp only [if_neg h2]
  by_cases h3 : buf.length < 14 + (read8 buf 14 &&& 0x0f) * 4 + 8
  · simp only [if_pos h3]
    exact Or.inl ⟨trivial, trivial, Or.inl trivial⟩
  simp only [if_neg h3]
  by_cases h4 : read8 buf 23 ≠ 17
  · simp only [if_pos h4]
    exact Or.inl ⟨trivial, trivial, Or.inl trivial⟩
  simp only [if_neg h4]
  by_cases h5 : read16be buf (14 + (read8 buf 14 &&& 0x0f) * 4 + 2) ≠ 6363 ∧
      read16be buf (14 + (read8 buf 14 &&& 0x0f) * 4) ≠ 6363
  · simp only [if_pos h5]
    exact Or.inl ⟨trivial, trivial, Or.inr (Or.inl trivial)⟩
  simp only [if_neg h5]
  by_cases h6 : buf.length < 14 + (read8 buf 14 &&& 0x0f) * 4 + 8 + 2
  · simp only [if_pos h6]
    exact Or.inl ⟨trivial, trivial, Or.inr (Or.inl trivial)⟩
  simp only [if_neg h6]
  by_cases h7 : read8 buf (14 + (read8 buf 14 &&& 0x0f) * 4 + 8) ≠ 0x05 ∧
      read8 buf (14 + (read8 buf 14 &&& 0x0f) * 4 + 8) ≠ 0x06
  · simp only [if_pos h7]
    exact Or.inl ⟨trivial, trivial, Or.inr (Or.inl trivial)⟩
  simp only [if_neg h7]
  by_cases h8 : read8 buf (14 + (read8 buf 14 &&& 0x0f) * 4 + 8) = 0x05
  · simp only [if_pos h8]
    by_cases h9 : buf.length < 14 + (read8 buf 14 &&& 0x0f) * 4 + 8 + 12
    · simp only [if_pos h9]
      exact Or.inl ⟨trivial, trivial, Or.inr (Or.inr (Or.inl trivial))⟩
    · simp only [if_neg h9]
      exact Or.inr (Or.inl ⟨read32le buf (14 + (read8 buf 14 &&& 0x0f) * 4 + 8 + 2),
        read32le buf (14 + (read8 buf 14 &&& 0x0f) * 4 + 8 + 6), rfl, rfl, rfl⟩)
  · simp only [if_neg h8]
    by_cases h10 : read8 buf (14 + (read8 buf 14 &&& 0x0f) * 4 + 8) = 0x06
    · simp only [if_pos h10]
      by_cases h11 : buf.length < 14 + (read8 buf 14 &&& 0x0f) * 4 + 8 + 10
      · simp only [if_pos h11]
        exact Or.inl ⟨trivial, trivial, Or.inr (Or.inr (Or.inr trivial))⟩
      · simp only [if_neg h11]
        exact Or.inr (Or.inr ⟨read32le buf (14 + (read8 buf 14 &&& 0x0f) * 4 + 8 + 2),
        read16le buf (14 + (read8 buf 14 &&& 0x0f) * 4 + 8 + 6),
        read32le buf (14 + (read8 buf 14 &&& 0x0f) * 4 + 8 + 8), rfl, rfl, rfl⟩)
    · simp only [if_neg h10]
      exact Or.inl ⟨trivial, trivial, Or.inr (Or.inl trivial)⟩

theorem insertPit_dataCache (nh : Nat) (s : EngineState) :
    (insertPit nh s).2.dataCache = s.dataCache := by
  unfold insertPit
  dsimp only
  split
  · rfl
  · rfl

theorem handle_interest_dataCache (i : InterestPacket) (s : EngineState) :
    (handle_interest i s).2.dataCache = s.dataCache := by
  unfold handle_interest
  dsimp only
  split
  · split
    · rfl
    · rw [insertPit_dataCache]
      rfl
  · rw [insertPit_dataCache]

theorem handle_data_dataCache (pkt : DataPacket) (pl : List Nat) (s : EngineState) :
    (handle_data pkt pl s).2.dataCache = s.dataCache := by
  unfold handle_data dataStep
  dsimp only
  split
  · rfl
  · rfl

theorem insertPit_no_tx (nh : Nat) (s : EngineState) :
    (insertPit nh s).1 ≠ XDP_TX := by
  unfold insertPit
  dsimp only
  split
  · simp [XDP_PASS, XDP_TX]
  · simp [XDP_DROP, XDP_TX]

theorem handle_interest_no_tx (i : InterestPacket) (s : EngineState)
    (h : s.dataCache = []) : (handle_interest i s).1 ≠ XDP_TX := by
  unfold handle_interest
  dsimp only
  split
  · simp only [bumpCacheHits, h]
    simp [lookupA]
    exact insertPit_no_tx _ _
  · exact insertPit_no_tx _ _

theorem handle_data_no_tx (pkt : DataPacket) (pl : List Nat) (s : EngineState) :
    (handle_data pkt pl s).1 ≠ XDP_TX := by
  unfold handle_data dataStep
  dsimp only
  split
  · simp [XDP_PASS, XDP_TX]
  · simp [XDP_DROP, XDP_TX]

theorem try_udcn_dataCache (buf : List Nat) (s : EngineState) :
    (try_udcn buf s).state.dataCache = s.dataCache := by
  rcases try_udcn_classify_spec buf s with
      ⟨_, _, h | h | h | h⟩ | ⟨f, n, _, _, h⟩ | ⟨f, sz, sig, _, _, h⟩ <;>
    rw [h]
  · rfl
  · rfl
  · rfl
  · rfl
  · rw [handle_interest_dataCache]
    rfl
  · rw [handle_data_dataCache]
    rfl

theorem try_udcn_no_tx (buf : List Nat) (s : EngineState)
    (h : s.dataCache = []) : (try_udcn buf s).action ≠ XDP_TX := by
  rcases try_udcn_classify_spec buf s with
      ⟨_, ha, _⟩ | ⟨f, n, _, ha, _⟩ | ⟨f, sz, sig, _, ha, _⟩ <;> rw [ha]
  · simp [XDP_PASS, XDP_TX]
  · exact handle_interest_no_tx _ _ h
  · exact handle_data_no_tx _ _ _

theorem runPackets_dataCache (bufs : List (List Nat)) (s : EngineState) :
    (runPackets bufs s).dataCache = s.dataCache := by
  induction bufs generalizing s with
  | nil => rfl
  | cons b bs ih =>
      show (runPackets bs (try_udcn b s).state).dataCache = s.dataCache
      rw [ih, try_udcn_dataCache]

/-- C5: starting from the empty initial state, the Payload Cache
(DATA_CACHE) stays empty after any sequence of processed packets — the
Data path never populates it — and consequently no invocation from a
reachable state ever returns the Reply action (XDP_TX). -/
theorem c5_payload_cache_empty_reply_unreachable :
    ∀ (bufs : List (List Nat)) (buf : List Nat),
      (runPackets bufs initState).dataCache = [] ∧
      (try_udcn buf (runPackets bufs initState)).action ≠ XDP_TX := by
  intro bufs buf
  have hdc : (runPackets bufs initState).dataCache = [] := by
    rw [runPackets_dataCache]
    rfl
  exact ⟨hdc, try_udcn_no_tx _ _ hdc⟩


theorem insertPit_cs (nh : Nat) (s : EngineState) :
    (insertPit nh s).2.cs = s.cs := by
  unfold insertPit
  dsimp only
  split
  · rfl
  · rfl

theorem goodCs_lruGet (k : Nat) (m : List (Nat × CacheEntry)) (h : goodCs m) :
    goodCs (lruGet k m).2 := by
  unfold lruGet
  cases hl : lookupA k m with
  | none => exact h
  | some v =>
      dsimp only
      intro p hp
      rcases List.mem_cons.mp hp with rfl | hp2
      · exact h _ (lookupA_mem hl)
      · exact h p (List.mem_filter.mp hp2).1

theorem goodCs_lruInsert (cap k : Nat) (e : CacheEntry) (he : e.timestamp = 0)
    (m : List (Nat × CacheEntry)) (h : goodCs m) :
    goodCs (lruInsert cap k e m) := by
  unfold lruInsert
  by_cases c1 : (lookupA k m).isSome = true
  · rw [if_pos c1]
    intro p hp
    rcases List.mem_cons.mp hp with rfl | hp2
    · exact he
    · exact h p (List.mem_filter.mp hp2).1
  · rw [if_neg c1]
    by_cases c2 : m.length < cap
    · rw [if_pos c2]
      intro p hp
      rcases List.mem_cons.mp hp with rfl | hp2
      · exact he
      · exact h p hp2
    · rw [if_neg c2]
      intro p hp
      rcases List.mem_cons.mp hp with rfl | hp2
      · exact he
      · exact h p ((List.dropLast_sublist m).subset hp2)

theorem insertPit_goodPit (nh : Nat) (s : EngineState) (h : goodPit s.pit) :
    goodPit (insertPit nh s).2.pit := by
  unfold insertPit hashMapInsert
  dsimp only
  by_cases h1 : (lookupA nh s.pit).isSome = true
  · rw [if_pos h1]
    intro p hp
    rcases List.mem_cons.mp hp with rfl | hp2
    · exact ⟨rfl, rfl⟩
    · exact h p (List.mem_filter.mp hp2).1
  · rw [if_neg h1]
    by_cases h2 : s.pit.length < 1024
    · rw [if_pos h2]
      intro p hp
      rcases List.mem_cons.mp hp with rfl | hp2
      · exact ⟨rfl, rfl⟩
      · exact h p hp2
    · rw [if_neg h2]
      exact h

theorem handle_interest_good (i : InterestPacket) (s : EngineState)
    (h1 : goodPit s.pit) (h2 : goodCs s.cs) :
    goodPit (handle_interest i s).2.pit ∧ goodCs (handle_interest i s).2.cs := by
  unfold handle_interest
  dsimp only
  split
  case h_1 x v cs2 heq =>
    have hcs2 : goodCs cs2 := by
      have : cs2 = (lruGet i.name_hash s.cs).2 := by rw [heq]
      rw [this]
      exact goodCs_lruGet _ _ h2
    split
    · exact ⟨h1, hcs2⟩
    · refine ⟨insertPit_goodPit _ _ h1, ?_⟩
      rw [insertPit_cs]
      exact hcs2
  case h_2 x y heq =>
    refine ⟨insertPit_goodPit _ _ h1, ?_⟩
    rw [insertPit_cs]
    exact h2

theorem handle_data_good (pkt : DataPacket) (pl : List Nat) (s : EngineState)
    (h1 : goodPit s.pit) (h2 : goodCs s.cs) :
    goodPit (handle_data pkt pl s).2.pit ∧ goodCs (handle_data pkt pl s).2.cs := by
  unfold handle_data dataStep
  dsimp only
  split
  · constructor
    · intro p hp
      exact h1 p (List.mem_filter.mp hp).1
    · exact goodCs_lruInsert 512 pkt.name_hash _ rfl s.cs h2
  · exact ⟨h1, h2⟩

theorem try_udcn_good (buf : List Nat) (s : EngineState)
    (h1 : goodPit s.pit) (h2 : goodCs s.cs) :
    goodPit (try_udcn buf s).state.pit ∧ goodCs (try_udcn buf s).state.cs := by
  rcases try_udcn_classify_spec buf s with
      ⟨_, _, h | h | h | h⟩ | ⟨f, n, _, _, h⟩ | ⟨f, sz, sig, _, _, h⟩ <;> rw [h]
  · exact ⟨h1, h2⟩
  · exact ⟨h1, h2⟩
  · exact ⟨h1, h2⟩
  · exact ⟨h1, h2⟩
  · exact handle_interest_good _ _ h1 h2
  · exact handle_data_good _ _ _ h1 h2

theorem runPackets_good (bufs : List (List Nat)) (s : EngineState)
    (h1 : goodPit s.pit) (h2 : goodCs s.cs) :
    goodPit (runPackets bufs s).pit ∧ goodCs (runPackets bufs s).cs := by
  induction bufs generalizing s with
  | nil => exact ⟨h1, h2⟩
  | cons b bs ih =>
      have hstep := try_udcn_good b s h1 h2
      exact ih (try_udcn b s).state hstep.1 hstep.2

/-- C10: in every state reachable from the initial state, every PIT
entry carries face_id 1 and timestamp 0, and every Content Store entry
carries timestamp 0 — the fast path never stores per-packet face or
time values. -/
theorem c10_constant_face_and_timestamp :
    ∀ bufs : List (List Nat),
      ((runPackets bufs initState).pit.all
        (fun kv => kv.2.face_id == 1 && kv.2.timestamp == 0)) = true ∧
      ((runPackets bufs initState).cs.all
        (fun kv => kv.2.timestamp == 0)) = true := by
  intro bufs
  have h := runPackets_good bufs initState
    (by intro p hp; exact absurd hp (List.not_mem_nil p))
    (by intro p hp; exact absurd hp (List.not_mem_nil p))
  constructor
  · rw [List.all_eq_true]
    intro kv hkv
    obtain ⟨ha, hb⟩ := h.1 kv hkv
    simp [ha, hb]
  · rw [List.all_eq_true]
    intro kv hkv
    simp [h.2 kv hkv]


/-- C4 amended: every frame that fails a classifier step yields Pass,
never touches the PIT, the Content Store or the Payload Cache, leaves
cache_hits, cache_misses and pit_hits unchanged, and increments the
entry counter (drops) exactly once; the forwards and
interest_received/data_received counters may additionally be bumped when
the frame reaches the port check or the NDN type count (the
counterexample shows they are). A non-IPv4 frame of at least 34 bytes
changes the state by the drops bump alone, as in Scenario C. -/
theorem c4_amended_not_intercepted :
    ∀ (buf : List Nat) (s : EngineState),
      (classify buf = Classification.notIntercepted →
        (try_udcn buf s).action = XDP_PASS ∧
        (try_udcn buf s).state.pit = s.pit ∧
        (try_udcn buf s).state.cs = s.cs ∧
        (try_udcn buf s).state.dataCache = s.dataCache ∧
        (try_udcn buf s).state.stats.drops = incU32 s.stats.drops ∧
        (try_udcn buf s).state.stats.cache_hits = s.stats.cache_hits ∧
        (try_udcn buf s).state.stats.cache_misses = s.stats.cache_misses ∧
        (try_udcn buf s).state.stats.pit_hits = s.stats.pit_hits) ∧
      (34 ≤ buf.length → read16be buf 12 ≠ 0x0800 →
        (try_udcn buf s).action = XDP_PASS ∧
        (try_udcn buf s).state = bumpDrops s) := by
  intro buf s
  constructor
  · intro hni
    rcases try_udcn_classify_spec buf s with
        ⟨_, ha, h | h | h | h⟩ | ⟨f, n, hc, _, _⟩ | ⟨f, sz, sig, hc, _, _⟩
    · rw [h]; exact ⟨ha, rfl, rfl, rfl, rfl, rfl, rfl, rfl⟩
    · rw [h]; exact ⟨ha, rfl, rfl, rfl, rfl, rfl, rfl, rfl⟩
    · rw [h]; exact ⟨ha, rfl, rfl, rfl, rfl, rfl, rfl, rfl⟩
    · rw [h]; exact ⟨ha, rfl, rfl, rfl, rfl, rfl, rfl, rfl⟩
    · rw [hni] at hc; simp at hc
    · rw [hni] at hc; simp at hc
  · intro hlen hne
    unfold try_udcn
    dsimp only
    rw [if_neg (Nat.not_lt.mpr hlen), if_pos hne]
    exact ⟨rfl, rfl⟩

theorem c4_witness :
    classify frameArp = Classification.notIntercepted ∧
    34 ≤ frameArp.length ∧
    read16be frameArp 12 ≠ 0x0800 ∧
    (try_udcn frameArp initState).action = XDP_PASS ∧
    (try_udcn frameArp initState).state = bumpDrops initState ∧
    (try_udcn frameArp initState).state.pit = initState.pit :=
  ⟨by decide, by decide, by decide,
   ((c4_amended_not_intercepted frameArp initState).2 (by decide) (by decide)).1,
   ((c4_amended_not_intercepted frameArp initState).2 (by decide) (by decide)).2,
   ((c4_amended_not_intercepted frameArp initState).1 (by decide)).2.1⟩

theorem insertPit_stats (nh : Nat) (s : EngineState) :
    (insertPit nh s).2.stats = s.stats ∨
    (insertPit nh s).2.stats = (bumpDrops s).stats := by
  unfold insertPit
  dsimp only
  split
  · left; rfl
  · right; rfl

theorem handle_interest_stats (i : InterestPacket) (s : EngineState) :
    (handle_interest i s).2.stats = s.stats ∨
    (handle_interest i s).2.stats = (bumpDrops s).stats ∨
    (handle_interest i s).2.stats = (bumpCacheHits s).stats ∨
    (handle_interest i s).2.stats = (bumpDrops (bumpCacheHits s)).stats := by
  unfold handle_interest
  dsimp only
  split
  case h_1 x v cs2 heq =>
    split
    · right; right; left; rfl
    · rcases insertPit_stats i.name_hash (bumpCacheHits { s with cs := cs2 }) with h | h
      · right; right; left
        rw [h]; rfl
      · right; right; right
        rw [h]; rfl
  case h_2 x y heq =>
    rcases insertPit_stats i.name_hash s with h | h
    · left; exact h
    · right; left; exact h

theorem handle_data_stats (pkt : DataPacket) (pl : List Nat) (s : EngineState) :
    (handle_data pkt pl s).2.stats = (bumpPitHits s).stats ∨
    (handle_data pkt pl s).2.stats = (bumpDrops s).stats := by
  unfold handle_data dataStep
  dsimp only
  split
  · left; rfl
  · right; rfl

theorem try_udcn_stats (buf : List Nat) (s : EngineState) :
    evolves s.stats.interest_received (try_udcn buf s).state.stats.interest_received ∧
    evolves s.stats.data_received (try_udcn buf s).state.stats.data_received ∧
    evolves s.stats.cache_hits (try_udcn buf s).state.stats.cache_hits ∧
    evolves s.stats.cache_misses (try_udcn buf s).state.stats.cache_misses ∧
    evolves s.stats.pit_hits (try_udcn buf s).state.stats.pit_hits ∧
    evolves s.stats.forwards (try_udcn buf s).state.stats.forwards ∧
    evolves s.stats.drops (try_udcn buf s).state.stats.drops := by
  rcases try_udcn_classify_spec buf s with
      ⟨_, _, h | h | h | h⟩ | ⟨f, n, _, _, h⟩ | ⟨f, sz, sig, _, _, h⟩
  · rw [h]
    simp [evolves, bumpDrops]
  · rw [h]
    simp [evolves, bumpDrops, bumpForwards]
  · rw [h]
    simp [evolves, bumpDrops, bumpForwards, bumpInterest]
  · rw [h]
    simp [evolves, bumpDrops, bumpForwards, bumpData]
  · rcases handle_interest_stats ⟨f, n⟩ (bumpInterest (bumpForwards (bumpDrops s)))
        with hst | hst | hst | hst <;>
      rw [h, hst] <;>
      simp [evolves, bumpDrops, bumpForwards, bumpInterest, bumpCacheHits]
  · rcases handle_data_stats ⟨f, sz, sig⟩
        (buf.drop (14 + (read8 buf 14 &&& 0x0f) * 4 + 8))
        (bumpData (bumpForwards (bumpDrops s))) with hst | hst <;>
      rw [h, hst] <;>
      simp [evolves, bumpDrops, bumpForwards, bumpData, bumpPitHits]

theorem incU32_lt (x : Nat) : incU32 x < U32LIM :=
  Nat.mod_lt _ (by decide)

theorem evolves_lt {a b : Nat} (ha : a < U32LIM) (h : evolves a b) : b < U32LIM := by
  rcases h with rfl | rfl | rfl
  · exact ha
  · exact incU32_lt _
  · exact incU32_lt _

theorem runPackets_bounded (bufs : List (List Nat)) :
    statsBounded (runPackets bufs initState).stats := by
  have step : ∀ (buf : List Nat) (s : EngineState), statsBounded s.stats →
      statsBounded (try_udcn buf s).state.stats := by
    intro buf s hs
    obtain ⟨e1, e2, e3, e4, e5, e6, e7⟩ := try_udcn_stats buf s
    obtain ⟨b1, b2, b3, b4, b5, b6, b7⟩ := hs
    exact ⟨evolves_lt b1 e1, evolves_lt b2 e2, evolves_lt b3 e3, evolves_lt b4 e4,
      evolves_lt b5 e5, evolves_lt b6 e6, evolves_lt b7 e7⟩
  have aux : ∀ (l : List (List Nat)) (s : EngineState), statsBounded s.stats →
      statsBounded (runPackets l s).stats := by
    intro l
    induction l with
    | nil => intro s hs; exact hs
    | cons b bs ih => intro s hs; exact ih (try_udcn b s).state (step b s hs)
  exact aux bufs initState
    ⟨by decide, by decide, by decide, by decide, by decide, by decide, by decide⟩

theorem evolves_amended {a b : Nat} (ha : a < U32LIM) (h : evolves a b) :
    (a ≤ b ∨ U32LIM - 2 ≤ a) ∧ ∃ k, k ≤ 2 ∧ b = (a + k) % U32LIM := by
  rcases h with rfl | rfl | rfl
  · refine ⟨Or.inl le_rfl, 0, by omega, ?_⟩
    unfold U32LIM at *
    omega
  · constructor
    · unfold incU32 U32LIM at *
      omega
    · exact ⟨1, by omega, rfl⟩
  · constructor
    · unfold incU32 U32LIM at *
      omega
    · refine ⟨2, by omega, ?_⟩
      unfold incU32 U32LIM at *
      omega


/-- C9 amended: along any run from the initial state, each of the seven
u32 counters never decreases across a step unless it is within two
increments of the 2^32 wraparound, and each step changes each counter
only by adding k ≤ 2 modulo 2^32 (each counter is bumped at most twice
per packet; a decrease can only be a wrap past 2^32). -/
theorem c9_counters_monotone_mod_wrap :
    ∀ (bufs : List (List Nat)) (buf : List Nat),
      (((runPackets bufs initState).stats.interest_received ≤
          (try_udcn buf (runPackets bufs initState)).state.stats.interest_received ∨
        U32LIM - 2 ≤ (runPackets bufs initState).stats.interest_received) ∧
       ∃ k, k ≤ 2 ∧
         (try_udcn buf (runPackets bufs initState)).state.stats.interest_received =
           ((runPackets bufs initState).stats.interest_received + k) % U32LIM) ∧
      (((runPackets bufs initState).stats.data_received ≤
          (try_udcn buf (runPackets bufs initState)).state.stats.data_received ∨
        U32LIM - 2 ≤ (runPackets bufs initState).stats.data_received) ∧
       ∃ k, k ≤ 2 ∧
         (try_udcn buf (runPackets bufs initState)).state.stats.data_received =
           ((runPackets bufs initState).stats.data_received + k) % U32LIM) ∧
      (((runPackets bufs initState).stats.cache_hits ≤
          (try_udcn buf (runPackets bufs initState)).state.stats.cache_hits ∨
        U32LIM - 2 ≤ (runPackets bufs initState).stats.cache_hits) ∧
       ∃ k, k ≤ 2 ∧
         (try_udcn buf (runPackets bufs initState)).state.stats.cache_hits =
           ((runPackets bufs initState).stats.cache_hits + k) % U32LIM) ∧
      (((runPackets bufs initState).stats.cache_misses ≤
          (try_udcn buf (runPackets bufs initState)).state.stats.cache_misses ∨
        U32LIM - 2 ≤ (runPackets bufs initState).stats.cache_misses) ∧
       ∃ k, k ≤ 2 ∧
         (try_udcn buf (runPackets bufs initState)).state.stats.cache_misses =
           ((runPackets bufs initState).stats.cache_misses + k) % U32LIM) ∧
      (((runPackets bufs initState).stats.pit_hits ≤
          (try_udcn buf (runPackets bufs initState)).state.stats.pit_hits ∨
        U32LIM - 2 ≤ (runPackets bufs initState).stats.pit_hits) ∧
       ∃ k, k ≤ 2 ∧
         (try_udcn buf (runPackets bufs initState)).state.stats.pit_hits =
           ((runPackets bufs initState).stats.pit_hits + k) % U32LIM) ∧
      (((runPackets bufs initState).stats.forwards ≤
          (try_udcn buf (runPackets bufs initState)).state.stats.forwards ∨
        U32LIM - 2 ≤ (runPackets bufs initState).stats.forwards) ∧
       ∃ k, k ≤ 2 ∧
         (try_udcn buf (runPackets bufs initState)).state.stats.forwards =
           ((runPackets bufs initState).stats.forwards + k) % U32LIM) ∧
      (((runPackets bufs initState).stats.drops ≤
          (try_udcn buf (runPackets bufs initState)).state.stats.drops ∨
        U32LIM - 2 ≤ (runPackets bufs initState).stats.drops) ∧
       ∃ k, k ≤ 2 ∧
         (try_udcn buf (runPackets bufs initState)).state.stats.drops =
           ((runPackets bufs initState).stats.drops + k) % U32LIM) := by
  intro bufs buf
  obtain ⟨e1, e2, e3, e4, e5, e6, e7⟩ := try_udcn_stats buf (runPackets bufs initState)
  obtain ⟨b1, b2, b3, b4, b5, b6, b7⟩ := runPackets_bounded bufs
  exact ⟨evolves_amended b1 e1, evolves_amended b2 e2, evolves_amended b3 e3,
    evolves_amended b4 e4, evolves_amended b5 e5, evolves_amended b6 e6,
    evolves_amended b7 e7⟩

theorem try_udcn_nil_state (s : EngineState) :
    (try_udcn [] s).state = bumpDrops s := rfl

theorem runPackets_replicate_nil (n : Nat) :
    ∀ d : Nat, d < U32LIM →
      runPackets (List.replicate n []) (dropsOnlyState d) =
        dropsOnlyState ((d + n) % U32LIM) := by
  induction n with
  | zero =>
      intro d hd
      have h0 : (d + 0) % U32LIM = d := by
        rw [Nat.add_zero]
        exact Nat.mod_eq_of_lt hd
      rw [List.replicate]
      show dropsOnlyState d = _
      rw [h0]
  | succ m ih =>
      intro d hd
      rw [List.replicate_succ]
      show runPackets (List.replicate m []) (try_udcn [] (dropsOnlyState d)).state = _
      rw [try_udcn_nil_state]
      have hb : bumpDrops (dropsOnlyState d) = dropsOnlyState (incU32 d) := rfl
      rw [hb, ih (incU32 d) (incU32_lt d)]
      have harith : (incU32 d + m) % U32LIM = (d + (m + 1)) % U32LIM := by
        unfold incU32
        rw [Nat.mod_add_mod]
        congr 1
        omega
      rw [harith]

/-- C9 counterexample: the drops counter is a wrapping u32. Processing
2^32 - 1 empty frames from the initial state drives drops to 2^32 - 1;
processing one more packet wraps it to 0, strictly decreasing it — so
the counters are not unconditionally non-decreasing. -/
theorem c9_counterexample :
    (try_udcn [] (runPackets (List.replicate (U32LIM - 1) []) initState)).state.stats.drops <
      (runPackets (List.replicate (U32LIM - 1) []) initState).stats.drops := by
  have h0 : initState = dropsOnlyState 0 := rfl
  rw [h0, runPackets_replicate_nil (U32LIM - 1) 0 (by decide), try_udcn_nil_state]
  have h1 : (0 + (U32LIM - 1)) % U32LIM = U32LIM - 1 := by
    unfold U32LIM
    omega
  rw [h1]
  show incU32 (U32LIM - 1) < U32LIM - 1
  unfold incU32 U32LIM
  omega

end UDCN
